import Mathlib

/-!
Verification of the BiPay transaction-processing core.

Shallow embedding of the Python sources:
  * `backend/app/blockchain/service.py` — hash-chained ledger (`BC` namespace);
  * `backend/app/ai/service.py` — anomaly scorer (`AI` namespace);
  * `backend/app/main_enhanced.py` — enhanced P2P orchestrator (`ENH` namespace);
  * `backend/app/payments/router.py` — payments-router orchestrator (`RT` namespace).

Modelling conventions: Python floats are embedded as `ℚ`; clock readings,
freshly generated ids and timestamps are passed as explicit parameters;
library calls whose numeric output the claims never inspect
(`hashlib.sha256 ∘ json.dumps`, `np.mean`, `np.std`, `np.median`, `np.log1p`,
`datetime.fromisoformat`, the fitted `IsolationForest`) are abstracted as
function parameters; a `try`-protected region that returns a fallback on
exception becomes an `Except`-valued core together with a total wrapper.
Python dicts keyed by strings become association lists with first-match
lookup and in-place first-match update, which also reproduces the aliasing
of two handles to one dict.
-/

/-- First-match lookup in an association list (Python `d[k]` / `d.get(k)`). -/
def lookupA {β : Type} (k : String) : List (String × β) → Option β
  | [] => none
  | (k', v) :: rest => if k' = k then some v else lookupA k rest

/-- In-place update of the first entry with key `k` (mutating `d[k]`). -/
def updA {β : Type} (k : String) (f : β → β) : List (String × β) → List (String × β)
  | [] => []
  | (k', v) :: rest => if k' = k then (k', f v) :: rest else (k', v) :: updA k f rest

/-- Removal of the entry with key `k` (Python `del d[k]`; dict keys are
unique, so removing every match agrees with removing the one entry). -/
def eraseA {β : Type} (k : String) (l : List (String × β)) : List (String × β) :=
  l.filter (fun p => p.1 ≠ k)

/-- Python `d[k] = v`: overwrite if present, append otherwise. -/
def insertA {β : Type} (k : String) (v : β) (l : List (String × β)) : List (String × β) :=
  match lookupA k l with
  | some _ => updA k (fun _ => v) l
  | none => l ++ [(k, v)]

theorem lookupA_eraseA_self {β : Type} (k : String) (l : List (String × β)) :
    lookupA k (eraseA k l) = none := by
  induction l with
  | nil => rfl
  | cons hd tl ih =>
    obtain ⟨k', v⟩ := hd
    by_cases h : k' = k
    · simpa [eraseA, h] using ih
    · simpa [eraseA, lookupA, h] using ih

theorem lookupA_updA_self {β : Type} (k : String) (f : β → β) (l : List (String × β)) :
    lookupA k (updA k f l) = (lookupA k l).map f := by
  induction l with
  | nil => rfl
  | cons hd tl ih =>
    obtain ⟨k', v⟩ := hd
    by_cases h : k' = k
    · simp [updA, lookupA, h]
    · simp [updA, lookupA, h, ih]

theorem lookupA_updA_ne {β : Type} (k k' : String) (hne : k' ≠ k) (f : β → β)
    (l : List (String × β)) : lookupA k' (updA k f l) = lookupA k' l := by
  induction l with
  | nil => rfl
  | cons hd tl ih =>
    obtain ⟨k2, v⟩ := hd
    by_cases h : k2 = k
    · subst h
      have hk : ¬ k2 = k' := fun hc => hne (hc ▸ rfl)
      simp [updA, lookupA, hk]
    · simp [updA, lookupA, h, ih]

namespace BC

/-- `Transaction` dataclass of `blockchain/service.py`. -/
structure Tx where
  from_user : String
  to_user : String
  amount : ℚ
  transaction_type : String
  timestamp : String
  transaction_id : String
deriving DecidableEq

/-- `Block` dataclass of `blockchain/service.py` (defaults `nonce=0`, `hash=""`). -/
structure Block where
  index : Nat
  timestamp : String
  transactions : List Tx
  previous_hash : String
  nonce : Nat
  hash : String
deriving DecidableEq

/-- The exact data `Blockchain.calculate_hash` serializes with `json.dumps`
(`index`, `timestamp`, `transactions`, `previous_hash`, `nonce` — the stored
`hash` field is not part of it). -/
structure HashInput where
  index : Nat
  timestamp : String
  transactions : List Tx
  previous_hash : String
  nonce : Nat
deriving DecidableEq

def hashInput (b : Block) : HashInput :=
  ⟨b.index, b.timestamp, b.transactions, b.previous_hash, b.nonce⟩

/-- `Blockchain.calculate_hash`, with `H` abstracting
`sha256(json.dumps(...)).hexdigest()` on the serialized block data. -/
def calculate_hash (H : HashInput → String) (b : Block) : String :=
  H (hashInput b)

/-- Python `block.hash[:difficulty] == "0" * difficulty` (slicing truncates
on short strings, as `List.take` does). -/
def leadingZeroOk (d : Nat) (h : String) : Bool :=
  h.data.take d == List.replicate d '0'

/-- The three per-step checks of the `is_chain_valid` loop body for a
consecutive pair (`prev`, `cur`). -/
def stepOk (H : HashInput → String) (d : Nat) (prev cur : Block) : Bool :=
  (cur.hash == calculate_hash H cur) &&
  (cur.previous_hash == prev.hash) &&
  leadingZeroOk d cur.hash

/-- The `for i in range(1, len(chain))` loop of `is_chain_valid`, carrying
the previous block. -/
def validFrom (H : HashInput → String) (d : Nat) : Block → List Block → Bool
  | _, [] => true
  | prev, cur :: rest => stepOk H d prev cur && validFrom H d cur rest

/-- `Blockchain.is_chain_valid` as a function of a chain: block 0 is never
itself checked, only used as the link target of block 1. The `except`
branch is unreachable in the embedding (indexing is total). -/
def is_chain_valid (H : HashInput → String) (d : Nat) : List Block → Bool
  | [] => true
  | b :: rest => validFrom H d b rest

/-- State of a `Blockchain` instance: the chain, the pending buffer, and the
settings read at construction (`mining_reward = 10.0`,
`blockchain_difficulty = 4`). -/
structure BCState where
  chain : List Block
  pending : List Tx
  miningReward : ℚ
  difficulty : Nat
deriving DecidableEq

/-- `Blockchain.create_genesis_block`: index 0, no transactions,
`previous_hash = "0"`, `nonce = 0`, hash filled in by `calculate_hash`. -/
def genesisBlock (H : HashInput → String) (ts : String) : Block :=
  let b : Block := ⟨0, ts, [], "0", 0, ""⟩
  { b with hash := calculate_hash H b }

/-- A fresh `Blockchain()` right after `__init__` (with the genesis block
created at timestamp `ts`). -/
def initState (H : HashInput → String) (ts : String) : BCState :=
  { chain := [genesisBlock H ts], pending := [], miningReward := 10, difficulty := 4 }

/-- `Blockchain._validate_transaction`: all required fields truthy, and the
transaction id absent from every committed block. The pending buffer is not
consulted. -/
def validate_transaction (s : BCState) (t : Tx) : Bool :=
  decide (t.from_user ≠ "" ∧ t.to_user ≠ "" ∧ 0 < t.amount ∧ t.transaction_id ≠ "" ∧
    ∀ b ∈ s.chain, ∀ tx ∈ b.transactions, tx.transaction_id ≠ t.transaction_id)

/-- `Blockchain.add_transaction`: validate, then append to the pending
buffer; returns the success flag (the `except` branch is unreachable in the
embedding). -/
def add_transaction (s : BCState) (t : Tx) : Bool × BCState :=
  if validate_transaction s t then (true, { s with pending := s.pending ++ [t] })
  else (false, s)

/-- `Blockchain.get_latest_block().hash` (the chain is never empty when it
is read; `""` stands for the unreachable `None` case). -/
def latestHash (c : List Block) : String :=
  (c.getLast?.map Block.hash).getD ""

/-- The `while` loop of `Blockchain.mine_block`, with explicit fuel: each
iteration increments the nonce, then recomputes the hash. `none` means the
search has not finished within `fuel` iterations (in Python the loop would
still be running, so no state change is observable). -/
def mineLoop (H : HashInput → String) (d : Nat) : Block → Nat → Option Block
  | b, 0 => if leadingZeroOk d b.hash then some b else none
  | b, fuel + 1 =>
    if leadingZeroOk d b.hash then some b
    else
      let b' : Block := { b with nonce := b.nonce + 1 }
      mineLoop H d { b' with hash := calculate_hash H b' } fuel

/-- `Blockchain.mine_pending_transactions`: no-op on an empty buffer;
otherwise build the candidate block (all pending transactions plus the
system reward transaction), run proof-of-work, append atomically and clear
the buffer. `ts`, `rewardTs`, `rewardId` are the clock values Python reads. -/
def minePending (H : HashInput → String) (s : BCState) (addr ts rewardTs rewardId : String)
    (fuel : Nat) : Option Block × BCState :=
  if s.pending = [] then (none, s)
  else
    match mineLoop H s.difficulty
        ⟨s.chain.length, ts,
          s.pending ++ [⟨"system", addr, s.miningReward, "mining_reward", rewardTs, rewardId⟩],
          latestHash s.chain, 0, ""⟩ fuel with
    | none => (none, s)
    | some b => (some b, { s with chain := s.chain ++ [b], pending := [] })

/-- One observable operation on the `Blockchain` instance. -/
inductive Step (H : HashInput → String) : BCState → BCState → Prop
  | add (t : Tx) (s : BCState) : Step H s (add_transaction s t).2
  | mine (addr ts rewardTs rewardId : String) (fuel : Nat) (s : BCState) :
      Step H s (minePending H s addr ts rewardTs rewardId fuel).2

/-- States reachable from a fresh `Blockchain()` by any operation sequence. -/
def Reachable (H : HashInput → String) (ts : String) (s : BCState) : Prop :=
  Relation.ReflTransGen (Step H) (initState H ts) s

end BC

namespace BC

/-- The loop of `is_chain_valid` from a carried previous block is exactly a
`List.Chain` of the per-step check. -/
theorem validFrom_iff_chain (H : HashInput → String) (d : Nat) (p : Block) (l : List Block) :
    validFrom H d p l = true ↔ List.Chain (fun a b => stepOk H d a b = true) p l := by
  induction l generalizing p with
  | nil => simp [validFrom]
  | cons c rest ih => simp [validFrom, List.chain_cons, Bool.and_eq_true, ih]

/-- `is_chain_valid` is the pairwise chain of the per-step check. -/
theorem is_chain_valid_iff_chain (H : HashInput → String) (d : Nat) (c : List Block) :
    is_chain_valid H d c = true ↔
      List.Chain' (fun a b => stepOk H d a b = true) c := by
  cases c with
  | nil => simp [is_chain_valid]
  | cons b rest =>
    show validFrom H d b rest = true ↔ _
    rw [validFrom_iff_chain]
    exact Iff.rfl

/-- Indexed reading of `is_chain_valid`: the three checks hold for every
block at index `i + 1` against its predecessor at index `i`. Block 0 is
never checked on its own. -/
theorem is_chain_valid_iff_get (H : HashInput → String) (d : Nat) (c : List Block) :
    is_chain_valid H d c = true ↔
      ∀ (i : Nat) (hi : i + 1 < c.length),
        stepOk H d (c.get ⟨i, by omega⟩) (c.get ⟨i + 1, hi⟩) = true := by
  rw [is_chain_valid_iff_chain, List.chain'_iff_get]
  constructor
  · intro hh i hi
    exact hh i (by omega)
  · intro hh i hi
    exact hh i (by omega)

/-- Post-sealing tamper on one transaction: overwrite the `amount` of
transaction `j` of block `b` in place; the stored `hash`, `previous_hash`
and everything else stay as sealed. -/
def setTxAmount (b : Block) (j : Nat) (a : ℚ) : Block :=
  match b.transactions.get? j with
  | none => b
  | some t => { b with transactions := b.transactions.set j { t with amount := a } }

/-- Tamper block `k` of a chain by overwriting transaction `j`'s amount. -/
def tamperChain (c : List Block) (k j : Nat) (a : ℚ) : List Block :=
  match c.get? k with
  | none => c
  | some b => c.set k (setTxAmount b j a)

theorem setTxAmount_hash (b : Block) (j : Nat) (a : ℚ) :
    (setTxAmount b j a).hash = b.hash := by
  unfold setTxAmount
  cases b.transactions.get? j <;> rfl

end BC

/-- Claim C2 (amended): for every chain, `is_chain_valid` is true iff every
block at index `i + 1` recomputes to its stored hash, links to the hash of
block `i`, and carries the configured leading-zero prefix — the genesis
block itself is exempt from the hash-recomputation and prefix checks; and
overwriting one transaction's amount of a non-genesis block after sealing
makes `is_chain_valid` false, provided the hash function does not collide
on the tampered block data. -/
theorem C2_chain_validity (H : BC.HashInput → String) (d : Nat) (c : List BC.Block) :
    (BC.is_chain_valid H d c = true ↔
      ∀ (i : Nat) (hi : i + 1 < c.length),
        (c.get ⟨i + 1, hi⟩).hash = BC.calculate_hash H (c.get ⟨i + 1, hi⟩) ∧
        (c.get ⟨i + 1, hi⟩).previous_hash = (c.get ⟨i, by omega⟩).hash ∧
        BC.leadingZeroOk d (c.get ⟨i + 1, hi⟩).hash = true) ∧
    (BC.is_chain_valid H d c = true →
      ∀ (i : Nat) (hi : i + 1 < c.length) (j : Nat) (a : ℚ),
        H (BC.hashInput (BC.setTxAmount (c.get ⟨i + 1, hi⟩) j a)) ≠ (c.get ⟨i + 1, hi⟩).hash →
        BC.is_chain_valid H d (BC.tamperChain c (i + 1) j a) = false) := by
  have hiff : BC.is_chain_valid H d c = true ↔
      ∀ (i : Nat) (hi : i + 1 < c.length),
        (c.get ⟨i + 1, hi⟩).hash = BC.calculate_hash H (c.get ⟨i + 1, hi⟩) ∧
        (c.get ⟨i + 1, hi⟩).previous_hash = (c.get ⟨i, by omega⟩).hash ∧
        BC.leadingZeroOk d (c.get ⟨i + 1, hi⟩).hash = true := by
    rw [BC.is_chain_valid_iff_get]
    constructor
    · intro hh i hi
      have := hh i hi
      simp only [BC.stepOk, Bool.and_eq_true, beq_iff_eq] at this
      exact ⟨this.1.1, this.1.2, this.2⟩
    · intro hh i hi
      have := hh i hi
      simp only [BC.stepOk, Bool.and_eq_true, beq_iff_eq]
      exact ⟨⟨this.1, this.2.1⟩, this.2.2⟩
  refine ⟨hiff, ?_⟩
  intro _hv i hi j a hne
  set b := c.get ⟨i + 1, hi⟩ with hb
  have hget : c.get? (i + 1) = some b := by
    rw [List.get?_eq_get hi]
  have htc : BC.tamperChain c (i + 1) j a = c.set (i + 1) (BC.setTxAmount b j a) := by
    unfold BC.tamperChain
    rw [hget]
  by_contra hvalid
  rw [Bool.not_eq_false] at hvalid
  have hlen : (BC.tamperChain c (i + 1) j a).length = c.length := by
    rw [htc, List.length_set]
  have := ((BC.is_chain_valid_iff_get H d _).1 hvalid) i (by omega)
  simp only [BC.stepOk, Bool.and_eq_true, beq_iff_eq] at this
  have hgetset : (BC.tamperChain c (i + 1) j a).get ⟨i + 1, by omega⟩ =
      BC.setTxAmount b j a := by
    simp only [htc, List.get_eq_getElem, List.getElem_set]
    simp
  rw [hgetset] at this
  have h1 := this.1.1
  rw [BC.setTxAmount_hash] at h1
  exact hne (h1.symm.trans rfl)

/-- A concrete hash abstraction for the genesis-only counterexample: every
block data hashes to `"g0hash"`. -/
def Hc0 : BC.HashInput → String := fun _ => "g0hash"

/-- The sealed genesis-only chain produced by `Blockchain.__init__`. -/
def gB : BC.Block := BC.genesisBlock Hc0 "t0"

/-- Claim C2 counterexample: on the sealed genesis-only chain,
`is_chain_valid` is true although the genesis block's hash does not carry
the configured leading-zero prefix — so the claimed "every block of the
chain" equivalence is false as stated. -/
theorem C2_counterexample :
    BC.is_chain_valid Hc0 4 [gB] = true ∧
    ¬ (∀ b ∈ [gB], b.hash = BC.calculate_hash Hc0 b ∧
        BC.leadingZeroOk 4 b.hash = true) := by
  constructor
  · rfl
  · intro h
    have := (h gB (by simp)).2
    simp [gB, BC.genesisBlock, BC.calculate_hash, Hc0, BC.leadingZeroOk] at this

/-- Concrete two-block sealed chain for the C2 witness (difficulty 1). -/
def txW : BC.Tx := ⟨"alice", "bob", 5, "p2p", "t1", "tx1"⟩

def gW : BC.Block := ⟨0, "t0", [], "0", 0, "gh"⟩

def bW : BC.Block := ⟨1, "t1", [txW], "gh", 7, "0abc"⟩

def HW : BC.HashInput → String := fun x =>
  if x = BC.hashInput gW then "gh"
  else if x = BC.hashInput bW then "0abc" else "zz"

/-- Claim C2 witness: the chain `[gW, bW]` is valid at difficulty 1, and
overwriting the amount of its only transaction makes `is_chain_valid`
false. -/
theorem C2_witness :
    BC.is_chain_valid HW 1 (BC.tamperChain [gW, bW] 1 0 99) = false :=
  (C2_chain_validity HW 1 [gW, bW]).2 (by decide) 0 (by decide) 0 99 (by decide)

namespace BC

/-- What a completed proof-of-work search guarantees: the data fields are
those of the candidate, the prefix condition holds, and unless the loop
exited immediately the stored hash is the recomputation of the final block. -/
theorem mineLoop_some (H : HashInput → String) (d : Nat) :
    ∀ (fuel : Nat) (b0 b : Block), mineLoop H d b0 fuel = some b →
      b.index = b0.index ∧ b.timestamp = b0.timestamp ∧
      b.transactions = b0.transactions ∧ b.previous_hash = b0.previous_hash ∧
      leadingZeroOk d b.hash = true ∧
      (b = b0 ∨ b.hash = calculate_hash H b) := by
  intro fuel
  induction fuel with
  | zero =>
    intro b0 b h
    unfold mineLoop at h
    by_cases hz : leadingZeroOk d b0.hash
    · rw [if_pos hz] at h
      obtain rfl : b0 = b := by simpa using h
      exact ⟨rfl, rfl, rfl, rfl, hz, Or.inl rfl⟩
    · rw [if_neg hz] at h
      exact absurd h (by simp)
  | succ n ih =>
    intro b0 b h
    unfold mineLoop at h
    by_cases hz : leadingZeroOk d b0.hash
    · rw [if_pos hz] at h
      obtain rfl : b0 = b := by simpa using h
      exact ⟨rfl, rfl, rfl, rfl, hz, Or.inl rfl⟩
    · rw [if_neg hz] at h
      have := ih _ _ h
      refine ⟨this.1, this.2.1, this.2.2.1, this.2.2.2.1, this.2.2.2.2.1, Or.inr ?_⟩
      rcases this.2.2.2.2.2 with heq | hrec
      · subst heq
        rfl
      · exact hrec

/-- The invariant maintained by every `Blockchain` operation: nonempty
chain, the configured difficulty, and pairwise linkage plus hash
recomputation for every non-genesis block. -/
def Inv (H : HashInput → String) (s : BCState) : Prop :=
  s.chain ≠ [] ∧ s.difficulty = 4 ∧
  List.Chain' (fun p cur => cur.previous_hash = p.hash ∧ cur.hash = calculate_hash H cur)
    s.chain

theorem inv_init (H : HashInput → String) (ts : String) : Inv H (initState H ts) := by
  refine ⟨by simp [initState], rfl, ?_⟩
  simp [initState]

theorem chain_growth (H : HashInput → String) (s s' : BCState) (h : Step H s s') :
    ∃ l, s'.chain = s.chain ++ l := by
  cases h with
  | add t s =>
    refine ⟨[], ?_⟩
    unfold add_transaction
    by_cases hv : validate_transaction s t <;> simp [hv]
  | mine addr ts rewardTs rewardId fuel s =>
    unfold minePending
    by_cases hp : s.pending = []
    · exact ⟨[], by simp [hp]⟩
    · rw [if_neg hp]
      cases hm : mineLoop H s.difficulty
          ⟨s.chain.length, ts, s.pending ++
            [⟨"system", addr, s.miningReward, "mining_reward", rewardTs, rewardId⟩],
            latestHash s.chain, 0, ""⟩ fuel with
      | none => exact ⟨[], by simp [hm]⟩
      | some b => exact ⟨[b], by simp [hm]⟩


theorem inv_step (H : HashInput → String) (s s' : BCState) (hinv : Inv H s)
    (h : Step H s s') : Inv H s' := by
  obtain ⟨hne, hd4, hch⟩ := hinv
  cases h with
  | add t s =>
    have hchain : (add_transaction s t).2.chain = s.chain := by
      unfold add_transaction
      by_cases hv : validate_transaction s t <;> simp [hv]
    have hdiff : (add_transaction s t).2.difficulty = s.difficulty := by
      unfold add_transaction
      by_cases hv : validate_transaction s t <;> simp [hv]
    exact ⟨hchain ▸ hne, hdiff ▸ hd4, hchain ▸ hch⟩
  | mine addr ts rewardTs rewardId fuel s =>
    unfold minePending
    by_cases hp : s.pending = []
    · rw [if_pos hp]
      exact ⟨hne, hd4, hch⟩
    · rw [if_neg hp]
      cases hm : mineLoop H s.difficulty
          ⟨s.chain.length, ts, s.pending ++
            [⟨"system", addr, s.miningReward, "mining_reward", rewardTs, rewardId⟩],
            latestHash s.chain, 0, ""⟩ fuel with
      | none => exact ⟨hne, hd4, hch⟩
      | some b =>
        have hprops := mineLoop_some H s.difficulty fuel _ b hm
        have hbhash : b.hash = calculate_hash H b := by
          rcases hprops.2.2.2.2.2 with heq | hrec
          · exfalso
            have hz := hprops.2.2.2.2.1
            rw [heq, hd4] at hz
            simp [leadingZeroOk] at hz
          · exact hrec
        refine ⟨by simp, hd4, ?_⟩
        rw [List.chain'_append]
        refine ⟨hch, by simp, ?_⟩
        intro x hx y hy
        simp only [List.head?_cons, Option.mem_def, Option.some.injEq] at hy
        subst hy
        refine ⟨?_, hbhash⟩
        have hpb : b.previous_hash = latestHash s.chain := hprops.2.2.2.1
        have hlx : latestHash s.chain = x.hash := by
          rw [Option.mem_def] at hx
          unfold latestHash
          rw [hx]
          rfl
        rw [hpb, hlx]

theorem reachable_inv (H : HashInput → String) (ts : String) (s : BCState)
    (h : Reachable H ts s) : Inv H s := by
  induction h with
  | refl => exact inv_init H ts
  | tail _ hstep ih => exact inv_step H _ _ ih hstep

end BC

/-- Claim C9: in every state reachable from a fresh `Blockchain()` by any
sequence of `add_transaction` / `mine_pending_transactions` operations,
every block at index `i + 1` links to the hash of block `i` and stores
exactly the recomputed hash of its own data; and every further operation
only appends blocks — the existing chain is never removed or rewritten in
place. -/
theorem C9_reachable_chain_invariant (H : BC.HashInput → String) (ts : String)
    (s : BC.BCState) (h : BC.Reachable H ts s) :
    (∀ (i : Nat) (hi : i + 1 < s.chain.length),
        (s.chain.get ⟨i + 1, hi⟩).previous_hash = (s.chain.get ⟨i, by omega⟩).hash ∧
        (s.chain.get ⟨i + 1, hi⟩).hash = BC.calculate_hash H (s.chain.get ⟨i + 1, hi⟩)) ∧
    (∀ s' : BC.BCState, BC.Step H s s' → ∃ l, s'.chain = s.chain ++ l) := by
  have hinv := BC.reachable_inv H ts s h
  constructor
  · have hch := hinv.2.2
    rw [List.chain'_iff_get] at hch
    intro i hi
    exact hch i (by omega)
  · intro s' hstep
    exact BC.chain_growth H s s' hstep

/-- Claim C9 witness: the invariant instantiated at the freshly constructed
`Blockchain()` state, reachable by the empty operation sequence. -/
theorem C9_witness :
    (∀ (i : Nat) (hi : i + 1 < (BC.initState Hc0 "t0").chain.length),
        ((BC.initState Hc0 "t0").chain.get ⟨i + 1, hi⟩).previous_hash =
          ((BC.initState Hc0 "t0").chain.get ⟨i, by omega⟩).hash ∧
        ((BC.initState Hc0 "t0").chain.get ⟨i + 1, hi⟩).hash =
          BC.calculate_hash Hc0 ((BC.initState Hc0 "t0").chain.get ⟨i + 1, hi⟩)) ∧
    (∀ s' : BC.BCState, BC.Step Hc0 (BC.initState Hc0 "t0") s' →
        ∃ l, s'.chain = (BC.initState Hc0 "t0").chain ++ l) :=
  C9_reachable_chain_invariant Hc0 "t0" (BC.initState Hc0 "t0") Relation.ReflTransGen.refl

/-- Claim C10: the duplicate-id guard of `_validate_transaction` scans only
the committed chain, never the pending buffer — a well-formed transaction
whose id already sits in the pending buffer (but in no committed block) is
accepted and appended, leaving two pending transactions with the same id,
which a single subsequent mined block would then contain together. -/
theorem C10_pending_duplicate (s : BC.BCState) (t : BC.Tx)
    (h1 : t.from_user ≠ "") (h2 : t.to_user ≠ "") (h3 : 0 < t.amount)
    (h4 : t.transaction_id ≠ "")
    (h5 : ∀ b ∈ s.chain, ∀ tx ∈ b.transactions, tx.transaction_id ≠ t.transaction_id)
    (h6 : t.transaction_id ∈ s.pending.map BC.Tx.transaction_id) :
    (BC.add_transaction s t).1 = true ∧
    (BC.add_transaction s t).2.pending = s.pending ++ [t] ∧
    2 ≤ ((BC.add_transaction s t).2.pending.filter
          (fun x => x.transaction_id == t.transaction_id)).length := by
  have hv : BC.validate_transaction s t = true :=
    decide_eq_true ⟨h1, h2, h3, h4, h5⟩
  have hadd : BC.add_transaction s t =
      (true, { s with pending := s.pending ++ [t] }) := by
    unfold BC.add_transaction
    rw [if_pos hv]
  refine ⟨by rw [hadd], by rw [hadd], ?_⟩
  rw [hadd]
  obtain ⟨x, hx, hxid⟩ := List.mem_map.1 h6
  have hxmem : x ∈ s.pending.filter (fun y => y.transaction_id == t.transaction_id) :=
    List.mem_filter.2 ⟨hx, by simp [hxid]⟩
  have h1le : 1 ≤ (s.pending.filter (fun y => y.transaction_id == t.transaction_id)).length :=
    List.length_pos.2 (List.ne_nil_of_mem hxmem)
  simp only [List.filter_append, List.length_append]
  have : (List.filter (fun y => y.transaction_id == t.transaction_id) [t]).length = 1 := by
    simp
  omega

/-- Claim C10 witness: a pending buffer already holding id `"tx1"`, a chain
holding only the genesis block, and a fresh well-formed transaction with
the same id `"tx1"`. -/
theorem C10_witness :
    (BC.add_transaction ⟨[gB], [txW], 10, 4⟩ ⟨"carol", "dave", 3, "p2p", "t2", "tx1"⟩).1
      = true ∧
    (BC.add_transaction ⟨[gB], [txW], 10, 4⟩ ⟨"carol", "dave", 3, "p2p", "t2", "tx1"⟩).2.pending
      = [txW] ++ [⟨"carol", "dave", 3, "p2p", "t2", "tx1"⟩] ∧
    2 ≤ ((BC.add_transaction ⟨[gB], [txW], 10, 4⟩
          ⟨"carol", "dave", 3, "p2p", "t2", "tx1"⟩).2.pending.filter
            (fun x => x.transaction_id == "tx1")).length :=
  C10_pending_duplicate ⟨[gB], [txW], 10, 4⟩ ⟨"carol", "dave", 3, "p2p", "t2", "tx1"⟩
    (by decide) (by decide) (by decide) (by decide) (by decide) (by decide)

namespace AI

/-- A parsed `datetime` value, reduced to the observations the service
makes of it: seconds since epoch (for subtraction and ordering), `.hour`
and `.weekday()`. -/
structure DT where
  epoch : Int
  hour : Nat
  weekday : Nat
deriving DecidableEq

/-- A transaction dict as passed to the AI service; each field is read with
`.get(key, default)`, so every field is optional. -/
structure Txn where
  transaction_id : Option String
  amount : Option ℚ
  transaction_type : Option String
  timestamp : Option String
deriving DecidableEq

/-- A user-history entry dict (`amount`, `timestamp`, `transaction_type`)
as built by the payments router; each field is read with `.get`. -/
structure HistE where
  amount : Option ℚ
  timestamp : Option String
  transaction_type : Option String
deriving DecidableEq

/-- The library calls of `ai/service.py` abstracted as functions:
`datetime.fromisoformat` (`none` models a raised `ValueError`),
`datetime.utcnow()`, `.isoformat()`, `np.log1p`, `np.mean`, `np.std`,
`np.median`, and the fitted model's `decision_function` / `predict == -1`
(`none` models a raised sklearn exception, e.g. unfitted model or feature
shape mismatch). -/
structure AiEnv where
  parse : String → Option DT
  now : DT
  iso : DT → String
  log1p : ℚ → ℚ
  mean : List ℚ → ℚ
  std : List ℚ → ℚ
  median : List ℚ → ℚ
  decision : List ℚ → Option ℚ
  predict : List ℚ → Option Bool

/-- Python builtin `max` on two floats, as an executable conditional. -/
def pyMax (a b : ℚ) : ℚ := if a ≤ b then b else a

/-- Python builtin `min` on two floats, as an executable conditional. -/
def pyMin (a b : ℚ) : ℚ := if a ≤ b then a else b

theorem le_pyMax_left (a b : ℚ) : a ≤ pyMax a b := by
  unfold pyMax
  split_ifs with h
  · exact h
  · exact le_refl a

theorem pyMin_le_left (a b : ℚ) : pyMin a b ≤ a := by
  unfold pyMin
  split_ifs with h
  · exact le_refl a
  · linarith [lt_of_not_le h]

theorem le_pyMin (a b c : ℚ) (ha : c ≤ a) (hb : c ≤ b) : c ≤ pyMin a b := by
  unfold pyMin
  split_ifs <;> assumption

/-- `len(str(amount).split('.')[0])`: the character count of the integer
part of the amount (the decimal-point split of Python float printing). -/
def amountDigits (a : ℚ) : Nat :=
  (toString a.floor).length

/-- Python `max(amounts)` / `min(amounts)` on a nonempty list (`0` is never
reached: the call sites guard on nonemptiness). -/
def maxList : List ℚ → ℚ
  | [] => 0
  | x :: xs => xs.foldl max x

def minList : List ℚ → ℚ
  | [] => 0
  | x :: xs => xs.foldl min x

/-- The history-timestamp collection loop: `fromisoformat` each entry's
`timestamp` (default `''`), skipping entries whose parse raises. -/
def histTimestamps (env : AiEnv) (hist : List HistE) : List DT :=
  hist.filterMap (fun e => env.parse (e.timestamp.getD ""))

/-- `timestamps.sort()` — insertion sort by the epoch ordering. -/
def insertDT (x : DT) : List DT → List DT
  | [] => [x]
  | y :: ys => if x.epoch ≤ y.epoch then x :: y :: ys else y :: insertDT x ys

def sortDT (l : List DT) : List DT :=
  l.foldr insertDT []

/-- `(timestamps[i] - timestamps[i-1]).total_seconds()` for consecutive
sorted entries. -/
def timeDiffs (l : List DT) : List ℚ :=
  (l.zip l.tail).map (fun p => ((p.2.epoch - p.1.epoch : Int) : ℚ))

/-- The velocity loop of `extract_features`: counts and summed amounts of
history entries within the last hour / last day of the transaction time,
skipping entries whose timestamp parse raises. -/
def velocity (env : AiEnv) (txT : DT) (hist : List HistE) : List ℚ :=
  let r := hist.foldl
    (fun (acc : ℚ × ℚ × ℚ × ℚ) e =>
      match env.parse (e.timestamp.getD "") with
      | none => acc
      | some ts =>
        let d : Int := txT.epoch - ts.epoch
        ⟨if d ≤ 3600 then acc.1 + 1 else acc.1,
         if d ≤ 86400 then acc.2.1 + 1 else acc.2.1,
         if d ≤ 3600 then acc.2.2.1 + e.amount.getD 0 else acc.2.2.1,
         if d ≤ 86400 then acc.2.2.2 + e.amount.getD 0 else acc.2.2.2⟩)
    ⟨0, 0, 0, 0⟩
  [r.1, r.2.1, r.2.2.1, r.2.2.2]

/-- The `try` body of `AnomalyDetectionService.extract_features`. The only
failure point is `fromisoformat` on a present-but-malformed transaction
timestamp (the two parses of it read the same string; history-entry parses
are individually caught and skipped). -/
def extractCore (env : AiEnv) (t : Txn) (hist : List HistE) : Except Unit (List ℚ) :=
  match env.parse (t.timestamp.getD (env.iso env.now)) with
  | none => Except.error ()
  | some txT =>
    let amount := t.amount.getD 0
    let base := [amount, env.log1p amount, (amountDigits amount : ℚ),
      (txT.hour : ℚ), (txT.weekday : ℚ)]
    let histF :=
      if hist ≠ [] then
        let amounts := hist.map (fun e => e.amount.getD 0)
        let part1 := [(amounts.length : ℚ),
          if amounts ≠ [] then env.mean amounts else 0,
          if 1 < amounts.length then env.std amounts else 0,
          if amounts ≠ [] then env.median amounts else 0,
          if amounts ≠ [] then maxList amounts else 0,
          if amounts ≠ [] then minList amounts else 0]
        let tss := sortDT (histTimestamps env hist)
        let part2 :=
          if tss ≠ [] then
            let tds := timeDiffs tss
            [if tds ≠ [] then env.mean tds else 0,
             if 1 < tds.length then env.std tds else 0,
             if tds ≠ [] then ((tds.filter (fun d => d < 300)).length : ℚ) / (tds.length : ℚ)
             else 0]
          else [0, 0, 0]
        part1 ++ part2
      else [0, 0, 0, 0, 0, 0, 0, 0, 0]
    Except.ok (base ++ histF ++ velocity env txT hist)

/-- `AnomalyDetectionService.extract_features`: the `try` body, with the
`except` fallback `np.zeros((1, 23))`. -/
def extract_features (env : AiEnv) (t : Txn) (hist : List HistE) : List ℚ :=
  match extractCore env t hist with
  | Except.ok l => l
  | Except.error _ => List.replicate 23 0

/-- Python `round(x, 4)` (round-half-to-even), on the embedded rationals. -/
def roundHalfEven (x : ℚ) : ℤ :=
  let n := ⌊x⌋
  let f := x - n
  if f < 1/2 then n
  else if 1/2 < f then n + 1
  else if n % 2 = 0 then n else n + 1

def round4 (x : ℚ) : ℚ :=
  (roundHalfEven (x * 10000) : ℚ) / 10000

/-- `settings.anomaly_threshold = 0.5`, read into `self.threshold`. -/
def anomalyThreshold : ℚ := 1/2

/-- The result dict of `check_transaction_anomaly`. -/
structure AnomalyResult where
  transaction_id : Option String
  anomaly_score : ℚ
  is_anomalous : Bool
  risk_factors : List String
  model_prediction : String
  timestamp : String
deriving DecidableEq

/-- `fromisoformat` over every history entry in order (the rapid-transaction
comprehension evaluates it for every element); the first failure raises. -/
def listParse (env : AiEnv) : List HistE → Except Unit (List DT)
  | [] => Except.ok []
  | e :: rest =>
    match env.parse (e.timestamp.getD "") with
    | none => Except.error ()
    | some d =>
      match listParse env rest with
      | Except.error x => Except.error x
      | Except.ok ds => Except.ok (d :: ds)

/-- The `try` body of `check_transaction_anomaly`: model scoring, linear
normalization, the four rule-based additive adjustments with their tags,
the upper clamp, and the final verdict. Failure points: the model calls
and the uncaught `fromisoformat` calls. -/
def checkCore (env : AiEnv) (t : Txn) (hist : List HistE) : Except Unit AnomalyResult :=
  match env.decision (extract_features env t hist) with
  | none => Except.error ()
  | some raw =>
    match env.predict (extract_features env t hist) with
    | none => Except.error ()
    | some isOutlier =>
      let normalized0 : ℚ := pyMax 0 (pyMin 1 ((1/2 - raw) / 1))
      let amount := t.amount.getD 0
      let n1 := if 5000 < amount then normalized0 + 2/10 else normalized0
      let f1 : List String := if 5000 < amount then ["large_amount"] else []
      let n2 := if hist.length = 0 ∧ 1000 < amount then n1 + 3/10 else n1
      let f2 := if hist.length = 0 ∧ 1000 < amount then f1 ++ ["new_user_large_amount"] else f1
      match env.parse (t.timestamp.getD (env.iso env.now)) with
      | none => Except.error ()
      | some txT =>
        let n3 := if txT.hour < 6 ∨ 23 < txT.hour then n2 + 1/10 else n2
        let f3 := if txT.hour < 6 ∨ 23 < txT.hour then f2 ++ ["unusual_time"] else f2
        let finish := fun (n4 : ℚ) (f4 : List String) =>
          let clamped := pyMin 1 n4
          Except.ok
            { transaction_id := t.transaction_id
              anomaly_score := round4 clamped
              is_anomalous := decide (anomalyThreshold < clamped) || isOutlier
              risk_factors := f4
              model_prediction := if isOutlier then "outlier" else "normal"
              timestamp := env.iso env.now }
        if 0 < hist.length then
          match listParse env hist with
          | Except.error _ => Except.error ()
          | Except.ok hts =>
            let recent := hts.filter (fun ts => (txT.epoch - ts.epoch : Int) < 300)
            if 3 < recent.length then finish (n3 + 2/10) (f3 ++ ["rapid_transactions"])
            else finish n3 f3
        else finish n3 f3

/-- The error-result dict built by the `except` branch of
`check_transaction_anomaly`. -/
def analysisErrorResult (env : AiEnv) (t : Txn) : AnomalyResult :=
  { transaction_id := t.transaction_id
    anomaly_score := 0
    is_anomalous := false
    risk_factors := ["analysis_error"]
    model_prediction := "error"
    timestamp := env.iso env.now }

/-- `AnomalyDetectionService.check_transaction_anomaly`: the `try` body with
its catch-all `except` fallback. -/
def check_transaction_anomaly (env : AiEnv) (t : Txn) (hist : List HistE) : AnomalyResult :=
  match checkCore env t hist with
  | Except.ok r => r
  | Except.error _ => analysisErrorResult env t

end AI

/-- Concrete environment for evaluating the feature extractor: `"good"` is
the only parsable timestamp. -/
def envA : AI.AiEnv :=
  { parse := fun s => if s = "good" then some ⟨0, 12, 0⟩ else none
    now := ⟨0, 12, 0⟩
    iso := fun _ => "good"
    log1p := fun _ => 0
    mean := fun _ => 0
    std := fun _ => 0
    median := fun _ => 0
    decision := fun _ => none
    predict := fun _ => none }

def tGood : AI.Txn := ⟨some "id1", some 100, some "p2p", some "good"⟩

def tBad : AI.Txn := ⟨some "id2", some 100, some "p2p", some "bad"⟩

def histGood : List AI.HistE := [⟨some 5, some "good", some "p2p"⟩]

/-- Claim C3 (code bug): the normal path of `extract_features` returns 18
features (5 transaction + 9 history + 4 velocity), while the `except`
fallback returns `np.zeros((1, 23))` — despite the code's own comment "The
number of features here must match the number above (23)". The dimension is
not fixed: a transaction with a malformed timestamp yields 23, every
well-formed input yields 18. -/
theorem C3_dimension_mismatch :
    (AI.extract_features envA tGood []).length = 18 ∧
    (AI.extract_features envA tGood histGood).length = 18 ∧
    (AI.extract_features envA tBad []).length = 23 ∧
    (AI.extract_features envA tBad []).length ≠ (AI.extract_features envA tGood []).length := by
  refine ⟨by decide, by decide, by decide, by decide⟩

/-- Claim C7: whenever any internal step of `check_transaction_anomaly`
fails, the wrapper returns the `analysis_error` result — score `0.0`,
`is_anomalous` false, the single tag `analysis_error` — instead of
propagating the exception (the embedding is total, mirroring the catch-all
`except`). -/
theorem C7_fail_open (env : AI.AiEnv) (t : AI.Txn) (hist : List AI.HistE)
    (h : AI.checkCore env t hist = Except.error ()) :
    AI.check_transaction_anomaly env t hist = AI.analysisErrorResult env t ∧
    (AI.check_transaction_anomaly env t hist).anomaly_score = 0 ∧
    (AI.check_transaction_anomaly env t hist).is_anomalous = false ∧
    (AI.check_transaction_anomaly env t hist).risk_factors = ["analysis_error"] := by
  unfold AI.check_transaction_anomaly
  rw [h]
  exact ⟨rfl, rfl, rfl, rfl⟩

/-- Environment in which every `fromisoformat` raises (so the scorer's
uncaught transaction-timestamp parse fails) while the model calls succeed. -/
def envB : AI.AiEnv :=
  { parse := fun _ => none
    now := ⟨0, 12, 0⟩
    iso := fun _ => "i"
    log1p := fun _ => 0
    mean := fun _ => 0
    std := fun _ => 0
    median := fun _ => 0
    decision := fun _ => some 0
    predict := fun _ => some false }

/-- Claim C7 witness: a malformed transaction timestamp makes the internal
pipeline fail, and the scorer degrades to the `analysis_error` result. -/
theorem C7_witness :
    AI.check_transaction_anomaly envB tBad [] = AI.analysisErrorResult envB tBad ∧
    (AI.check_transaction_anomaly envB tBad []).anomaly_score = 0 ∧
    (AI.check_transaction_anomaly envB tBad []).is_anomalous = false ∧
    (AI.check_transaction_anomaly envB tBad []).risk_factors = ["analysis_error"] :=
  C7_fail_open envB tBad [] (by rfl)

namespace AI

/-- Closed form of the adjusted score: the normalized model score plus the
additive adjustment of each triggered rule (stated from the spec's sentence
for comparison against `checkCore`). -/
def adjustedScore (raw amount : ℚ) (histLen hour rapid : Nat) : ℚ :=
  pyMax 0 (pyMin 1 ((1/2 - raw) / 1)) +
  (if 5000 < amount then 2/10 else 0) +
  (if histLen = 0 ∧ 1000 < amount then 3/10 else 0) +
  (if hour < 6 ∨ 23 < hour then 1/10 else 0) +
  (if 0 < histLen ∧ 3 < rapid then 2/10 else 0)

/-- Closed form of the tag list: one named tag per triggered rule, in the
order the code appends them. -/
def riskTags (amount : ℚ) (histLen hour rapid : Nat) : List String :=
  (if 5000 < amount then ["large_amount"] else []) ++
  (if histLen = 0 ∧ 1000 < amount then ["new_user_large_amount"] else []) ++
  (if hour < 6 ∨ 23 < hour then ["unusual_time"] else []) ++
  (if 0 < histLen ∧ 3 < rapid then ["rapid_transactions"] else [])

end AI

/-- Sequential `+=` accumulation of the three pre-rapid adjustments equals
the base plus per-rule indicator summands. -/
theorem seq_eq_sum (b : ℚ) (c1 c2 c3 : Prop) [Decidable c1] [Decidable c2] [Decidable c3] :
    (if c3 then (if c2 then (if c1 then b + 2/10 else b) + 3/10
        else if c1 then b + 2/10 else b) + 1/10
     else if c2 then (if c1 then b + 2/10 else b) + 3/10
        else if c1 then b + 2/10 else b) =
    b + (if c1 then 2/10 else 0) + (if c2 then 3/10 else 0) + (if c3 then 1/10 else 0) := by
  split_ifs <;> ring

/-- Sequential `append` accumulation of the three pre-rapid tags equals the
concatenation of per-rule indicator lists. -/
theorem tags_eq_concat (c1 c2 c3 : Prop) [Decidable c1] [Decidable c2] [Decidable c3] :
    (if c3 then (if c2 then (if c1 then ["large_amount"] else []) ++ ["new_user_large_amount"]
        else if c1 then ["large_amount"] else ([] : List String)) ++ ["unusual_time"]
     else if c2 then (if c1 then ["large_amount"] else []) ++ ["new_user_large_amount"]
        else if c1 then ["large_amount"] else []) =
    (if c1 then ["large_amount"] else []) ++ (if c2 then ["new_user_large_amount"] else []) ++
      (if c3 then ["unusual_time"] else []) := by
  split_ifs <;> simp

/-- Claim C8 (amended): on the success path the scorer returns exactly the
normalized model score plus the triggered additive adjustments, clamped
above at 1 (the sum is already nonnegative), with the matching tag list;
`is_anomalous` is true exactly when the clamped (unrounded) score exceeds
the threshold or the binary outlier flag is set. The score carried in the
result is this clamped sum rounded to 4 decimal places. -/
theorem C8_score_decomposition (env : AI.AiEnv) (t : AI.Txn) (hist : List AI.HistE)
    (raw : ℚ) (outl : Bool) (txT : AI.DT) (hts : List AI.DT)
    (hd : env.decision (AI.extract_features env t hist) = some raw)
    (hp : env.predict (AI.extract_features env t hist) = some outl)
    (ht : env.parse (t.timestamp.getD (env.iso env.now)) = some txT)
    (hh : AI.listParse env hist = Except.ok hts) :
    AI.check_transaction_anomaly env t hist =
      { transaction_id := t.transaction_id
        anomaly_score := AI.round4 (AI.pyMin 1 (AI.adjustedScore raw (t.amount.getD 0)
          hist.length txT.hour
          (hts.filter (fun ts => (txT.epoch - ts.epoch : Int) < 300)).length))
        is_anomalous := decide (AI.anomalyThreshold < AI.pyMin 1 (AI.adjustedScore raw
          (t.amount.getD 0) hist.length txT.hour
          (hts.filter (fun ts => (txT.epoch - ts.epoch : Int) < 300)).length)) || outl
        risk_factors := AI.riskTags (t.amount.getD 0) hist.length txT.hour
          (hts.filter (fun ts => (txT.epoch - ts.epoch : Int) < 300)).length
        model_prediction := if outl then "outlier" else "normal"
        timestamp := env.iso env.now } ∧
    0 ≤ AI.pyMin 1 (AI.adjustedScore raw (t.amount.getD 0) hist.length txT.hour
      (hts.filter (fun ts => (txT.epoch - ts.epoch : Int) < 300)).length) ∧
    AI.pyMin 1 (AI.adjustedScore raw (t.amount.getD 0) hist.length txT.hour
      (hts.filter (fun ts => (txT.epoch - ts.epoch : Int) < 300)).length) ≤ 1 := by
  have hbase : (0:ℚ) ≤ AI.pyMax 0 (AI.pyMin 1 ((1/2 - raw) / 1)) :=
    AI.le_pyMax_left 0 _
  have hadj : 0 ≤ AI.adjustedScore raw (t.amount.getD 0) hist.length txT.hour
      (hts.filter (fun ts => (txT.epoch - ts.epoch : Int) < 300)).length := by
    unfold AI.adjustedScore
    split_ifs <;> linarith
  refine ⟨?_, AI.le_pyMin 1 _ 0 (by norm_num) hadj, AI.pyMin_le_left 1 _⟩
  unfold AI.check_transaction_anomaly AI.checkCore
  simp only [hd, hp, ht, hh]
  by_cases hl : 0 < hist.length
  · simp only [if_pos hl]
    by_cases hr : 3 < (hts.filter (fun ts => (txT.epoch - ts.epoch : Int) < 300)).length
    · have hc4 : 0 < hist.length ∧ 3 <
          (hts.filter (fun ts => (txT.epoch - ts.epoch : Int) < 300)).length := ⟨hl, hr⟩
      simp only [if_pos hr]
      rw [seq_eq_sum, tags_eq_concat]
      simp only [AI.adjustedScore, AI.riskTags, if_pos hc4]
    · have hc4 : ¬ (0 < hist.length ∧ 3 <
          (hts.filter (fun ts => (txT.epoch - ts.epoch : Int) < 300)).length) := by
        intro hc
        exact hr hc.2
      simp only [if_neg hr]
      rw [seq_eq_sum, tags_eq_concat]
      simp only [AI.adjustedScore, AI.riskTags, if_neg hc4, add_zero, List.append_nil]
  · have hc4 : ¬ (0 < hist.length ∧ 3 <
        (hts.filter (fun ts => (txT.epoch - ts.epoch : Int) < 300)).length) := by
      intro hc
      exact hl hc.1
    simp only [if_neg hl]
    rw [seq_eq_sum, tags_eq_concat]
    simp only [AI.adjustedScore, AI.riskTags, if_neg hc4, add_zero, List.append_nil]

/-- Environment whose model score has more than four decimal places. -/
def envCX : AI.AiEnv :=
  { parse := fun _ => some ⟨0, 12, 0⟩
    now := ⟨0, 12, 0⟩
    iso := fun _ => "i"
    log1p := fun _ => 0
    mean := fun _ => 0
    std := fun _ => 0
    median := fun _ => 0
    decision := fun _ => some (1/3)
    predict := fun _ => some false }

def tCX : AI.Txn := ⟨some "cx", some 100, some "p2p", some "x"⟩

/-- Claim C8 counterexample: with raw model score 1/3 and no triggered
rule, the clamped adjusted score is 1/2 - 1/3 = 1/6, but the result's
`anomaly_score` is `round(1/6, 4) = 0.1667` — the returned score does not
equal the clamped adjusted sum as claimed. -/
theorem C8_counterexample :
    AI.pyMin 1 (AI.adjustedScore (1/3) 100 0 12 0) = 1/6 ∧
    (AI.check_transaction_anomaly envCX tCX []).anomaly_score = 1667/10000 ∧
    (AI.check_transaction_anomaly envCX tCX []).anomaly_score ≠
      AI.pyMin 1 (AI.adjustedScore (1/3) 100 0 12 0) := by
  refine ⟨by norm_num [AI.pyMin, AI.pyMax, AI.adjustedScore], ?_, ?_⟩ <;>
    norm_num [AI.check_transaction_anomaly, AI.checkCore, AI.round4, AI.roundHalfEven,
      AI.pyMin, AI.pyMax, AI.adjustedScore, AI.anomalyThreshold, AI.listParse, envCX, tCX]

/-- Environment for the C8 witness: base score 0, large amount at an
unusual hour. -/
def envW8 : AI.AiEnv :=
  { parse := fun _ => some ⟨0, 3, 0⟩
    now := ⟨0, 3, 0⟩
    iso := fun _ => "i"
    log1p := fun _ => 0
    mean := fun _ => 0
    std := fun _ => 0
    median := fun _ => 0
    decision := fun _ => some (1/2)
    predict := fun _ => some false }

def tW8 : AI.Txn := ⟨some "w8", some 6000, some "p2p", some "x"⟩

/-- Claim C8 witness: a 6000 transfer from an empty history at 3 a.m. gets
tags `large_amount`, `new_user_large_amount`, `unusual_time`, score
0 + 0.2 + 0.3 + 0.1 = 0.6 > 0.5, hence anomalous. -/
theorem C8_witness :
    AI.check_transaction_anomaly envW8 tW8 [] =
      { transaction_id := some "w8"
        anomaly_score := 3/5
        is_anomalous := true
        risk_factors := ["large_amount", "new_user_large_amount", "unusual_time"]
        model_prediction := "normal"
        timestamp := "i" } := by
  have h := (C8_score_decomposition envW8 tW8 [] (1/2) false ⟨0, 3, 0⟩ [] rfl rfl rfl rfl).1
  rw [h]
  norm_num [AI.round4, AI.roundHalfEven, AI.pyMin, AI.pyMax, AI.adjustedScore,
    AI.riskTags, AI.anomalyThreshold, AI.AnomalyResult.mk.injEq, envW8, tW8]

namespace ENH

/-- A `users_db` record, restricted to the fields the endpoint reads or
writes (`balance`, `credit_mode` with default `False`, `credit_limit` with
default `0`, `credit_used`, `total_transactions`, names for the response
message). -/
structure URec where
  balance : ℚ
  creditMode : Bool
  creditLimit : ℚ
  creditUsed : ℚ
  totalTransactions : Nat
  firstName : String
  lastName : String
deriving DecidableEq

/-- A `transactions_db` record as built by `p2p_payment`. -/
structure TxRec where
  transaction_id : String
  from_user : String
  to_user : String
  amount : ℚ
  description : Option String
  transaction_type : String
  status : String
  created_at : String
  blockchain_recorded : Bool
  ai_fraud_score : ℚ
  credit_used : Bool
  ledger_hash : Option String
deriving DecidableEq

/-- A `blockchain_db` entry as built by `add_to_blockchain`. -/
structure EnhBlock where
  block_id : Nat
  timestamp : String
  transaction : TxRec
  hash : String
deriving DecidableEq

/-- The global in-memory state of `main_enhanced.py`. -/
structure EnhState where
  users : List (String × URec)
  transactions : List TxRec
  fingerprints : List (String × String)
  blockchain : List EnhBlock
  nonceCache : List (String × Int)
  idemCache : List (String × String)
deriving DecidableEq

/-- `P2PPaymentRequest` (model fields; the body-level `idempotency_key`
field exists but the endpoint reads the header value instead). -/
structure P2PReq where
  to_user : String
  amount : ℚ
  description : Option String
  fingerprint_data : String
  nonce : String
  idempotency_key : String
deriving DecidableEq

/-- The two success-response shapes of the endpoint: the idempotent replay
(`"Payment already processed"`) and a freshly completed payment. -/
inductive PayOk
  | replayed (transaction_id : String) (new_balance : ℚ)
  | completed (transaction_id : String) (new_balance : ℚ) (recipient_name : String)
      (fraud_score : ℚ) (credit_used : Bool) (ledger_hash : String)
deriving DecidableEq

/-- The `HTTPException` outcomes of the endpoint, by `X-Error-Code`. -/
inductive PayErr
  | invalidNonce
  | recipientNotFound
  | senderNotFound
  | fingerprintNotEnrolled
  | authFailed
  | fraudDetected
  | insufficientFunds
  | creditLimitExceeded
deriving DecidableEq

/-- `verify_fingerprint`: similarity 0.95 on exact template match else 0.2,
matched iff similarity > 0.8. -/
def verify_fingerprint (stored provided : String) : Bool × ℚ :=
  let similarity : ℚ := if stored = provided then 95/100 else 2/10
  (decide (8/10 < similarity), similarity)

/-- `detect_fraud`: +0.3 for amount > 1000, +0.2 for more than 5 history
entries by this sender, +0.1 for an hour outside 6..23; fraudulent iff the
sum exceeds 0.5. `hour` is the wall-clock hour the code reads. -/
def detect_fraud (user_id : String) (amount : ℚ) (transaction_history : List TxRec)
    (hour : Nat) : Bool × ℚ :=
  let s1 : ℚ := if 1000 < amount then 3/10 else 0
  let recents := transaction_history.filter (fun tx => tx.from_user == user_id)
  let s2 := s1 + (if 5 < recents.length then 2/10 else 0)
  let s3 := s2 + (if hour < 6 ∨ 23 < hour then 1/10 else 0)
  (decide (1/2 < s3), s3)

/-- `validate_nonce`: unknown nonce is rejected; a known nonce is deleted
whether expired (older than 5 minutes = 300 s) or fresh, and only a fresh
one is accepted. `now` is the clock reading in seconds. -/
def validate_nonce (now : Int) (nonce : String) (cache : List (String × Int)) :
    Bool × List (String × Int) :=
  match lookupA nonce cache with
  | none => (false, cache)
  | some t => if 300 < now - t then (false, eraseA nonce cache) else (true, eraseA nonce cache)

/-- `add_to_blockchain`: append a single-transaction block whose hash `Hb`
abstracts `sha256(json.dumps(transaction_data))`; returns the hash (the
`except` fallback `""` is unreachable in the embedding). -/
def add_to_blockchain (Hb : TxRec → String) (nowIso : String) (txd : TxRec)
    (db : List EnhBlock) : String × List EnhBlock :=
  let h := Hb txd
  (h, db ++ [⟨db.length + 1, nowIso, txd, h⟩])

/-- The declined-transaction record appended on the fraud / funds / limit
decline paths. -/
def declinedTx (freshId nowIso : String) (req : P2PReq) (status : String)
    (score : ℚ) : TxRec :=
  { transaction_id := freshId, from_user := "user_12345", to_user := req.to_user,
    amount := req.amount, description := req.description, transaction_type := "p2p",
    status := status, created_at := nowIso, blockchain_recorded := false,
    ai_fraud_score := score, credit_used := false, ledger_hash := none }

/-- The success tail of `p2p_payment`: sequential balance writes (sender
first, then recipient — two handles into the same dict when the recipient
is the sender), the confirmed transaction record, the blockchain append,
and the idempotency store. -/
def finishPayment (Hb : TxRec → String) (freshId nowIso : String) (req : P2PReq)
    (idemKey : String) (creditUsed : Bool) (newBalance fraudScore : ℚ)
    (recName : String) (s : EnhState) : (Except PayErr PayOk) × EnhState :=
  let us1 := updA "user_12345"
    (fun r => { r with balance := newBalance,
                       totalTransactions := r.totalTransactions + 1 }) s.users
  let us2 := updA req.to_user
    (fun r => { r with balance := r.balance + req.amount,
                       totalTransactions := r.totalTransactions + 1 }) us1
  let txCore : TxRec :=
    { transaction_id := freshId, from_user := "user_12345", to_user := req.to_user,
      amount := req.amount, description := req.description, transaction_type := "p2p",
      status := "confirmed", created_at := nowIso, blockchain_recorded := true,
      ai_fraud_score := fraudScore, credit_used := creditUsed, ledger_hash := none }
  let hb := add_to_blockchain Hb nowIso txCore s.blockchain
  (Except.ok (PayOk.completed freshId newBalance recName fraudScore creditUsed hb.1),
   { s with users := us2,
            transactions := s.transactions ++ [{ txCore with ledger_hash := some hb.1 }],
            blockchain := hb.2,
            idemCache := insertA idemKey freshId s.idemCache })

/-- The `/api/v1/payments/p2p` endpoint body: idempotency short-circuit,
nonce validation (consuming), recipient/sender existence, fingerprint
authentication, fraud screen, hard-stop / overdraft funds logic, then the
success tail. `freshId`, `nowIso`, `now`, `hour` are the generated id and
clock readings. -/
def p2p_payment (Hb : TxRec → String) (freshId nowIso : String) (now : Int) (hour : Nat)
    (req : P2PReq) (idemKey : String) (s : EnhState) : (Except PayErr PayOk) × EnhState :=
  match lookupA idemKey s.idemCache with
  | some tid =>
    (Except.ok (PayOk.replayed tid
      (match lookupA req.to_user s.users with
       | some r => r.balance
       | none => 0)), s)
  | none =>
    let nres := validate_nonce now req.nonce s.nonceCache
    let s1 : EnhState := { s with nonceCache := nres.2 }
    if nres.1 = false then (Except.error PayErr.invalidNonce, s1)
    else
      match lookupA req.to_user s1.users with
      | none => (Except.error PayErr.recipientNotFound, s1)
      | some recipient =>
        match lookupA "user_12345" s1.users with
        | none => (Except.error PayErr.senderNotFound, s1)
        | some sender =>
          match lookupA "user_12345" s1.fingerprints with
          | none => (Except.error PayErr.fingerprintNotEnrolled, s1)
          | some storedFp =>
            if (verify_fingerprint storedFp req.fingerprint_data).1 = false then
              (Except.error PayErr.authFailed, s1)
            else
              let fr := detect_fraud "user_12345" req.amount
                (s1.transactions.filter (fun tx => tx.from_user == "user_12345")) hour
              if fr.1 then
                (Except.error PayErr.fraudDetected,
                 { s1 with transactions :=
                    s1.transactions ++ [declinedTx freshId nowIso req "declined_risk" fr.2] })
              else
                let newBalance := sender.balance - req.amount
                if newBalance < 0 then
                  if sender.creditMode = false then
                    (Except.error PayErr.insufficientFunds,
                     { s1 with transactions :=
                        s1.transactions ++ [declinedTx freshId nowIso req "declined_funds" fr.2] })
                  else if sender.creditLimit < (abs newBalance) then
                    (Except.error PayErr.creditLimitExceeded,
                     { s1 with transactions :=
                        s1.transactions ++ [declinedTx freshId nowIso req "declined_limit" fr.2] })
                  else
                    let s2 : EnhState :=
                      { s1 with users := updA "user_12345" (fun r => { r with creditUsed := abs newBalance }) s1.users }
                    finishPayment Hb freshId nowIso req idemKey true newBalance fr.2
                      (recipient.firstName ++ " " ++ recipient.lastName) s2
                else
                  finishPayment Hb freshId nowIso req idemKey false newBalance fr.2
                    (recipient.firstName ++ " " ++ recipient.lastName) s1

end ENH

/-- Claim C5: a request whose idempotency key is already cached returns the
originally stored transaction id and the state unchanged — no balance
mutation, no transaction record, no ledger entry, no nonce consumption —
for any payload. -/
theorem C5_idempotent_replay (Hb : ENH.TxRec → String) (freshId nowIso : String)
    (now : Int) (hour : Nat) (req : ENH.P2PReq) (idemKey : String) (s : ENH.EnhState)
    (tid : String) (hidem : lookupA idemKey s.idemCache = some tid) :
    ENH.p2p_payment Hb freshId nowIso now hour req idemKey s =
      (Except.ok (ENH.PayOk.replayed tid
        (match lookupA req.to_user s.users with
         | some r => r.balance
         | none => 0)), s) := by
  unfold ENH.p2p_payment
  rw [hidem]

/-- Concrete state for the C5 witness: key `"key-1"` already maps to
`"tx_old"`. -/
def sC5 : ENH.EnhState :=
  { users := [], transactions := [], fingerprints := [], blockchain := [],
    nonceCache := [], idemCache := [("key-1", "tx_old")] }

def reqC5 : ENH.P2PReq :=
  { to_user := "user_99999", amount := 25, description := none,
    fingerprint_data := "fp-sample-001", nonce := "nonce-sample-1",
    idempotency_key := "key-1" }

/-- Claim C5 witness: replaying key `"key-1"` returns `"tx_old"` and leaves
the state untouched. -/
theorem C5_witness :
    ENH.p2p_payment (fun _ => "h") "tx_new" "t0" 0 12 reqC5 "key-1" sC5 =
      (Except.ok (ENH.PayOk.replayed "tx_old" 0), sC5) :=
  C5_idempotent_replay (fun _ => "h") "tx_new" "t0" 0 12 reqC5 "key-1" sC5 "tx_old" rfl

namespace ENH

/-- After any `validate_nonce` call the nonce is gone from the cache:
deletion happens on both the accepted and the expired path, and an unknown
nonce was never there. -/
theorem validate_nonce_consumes (now : Int) (n : String) (c : List (String × Int)) :
    lookupA n (validate_nonce now n c).2 = none := by
  unfold validate_nonce
  cases hl : lookupA n c with
  | none =>
    simp only [hl]
  | some t =>
    simp only [hl]
    split_ifs <;> exact lookupA_eraseA_self n c

end ENH

/-- Claim C4: (i) validation deletes the nonce from the store regardless of
outcome; (ii) an expired nonce (older than the 5-minute TTL) is rejected;
(iii) a request whose nonce is absent from the store (in particular one
consumed by an earlier call) is rejected by the endpoint with
`INVALID_NONCE` and no state change, whenever the idempotency short-circuit
does not fire; (iv) after any endpoint call that reaches nonce validation,
the request's nonce is absent from the store — even if the call later
failed for an unrelated reason. -/
theorem C4_nonce_single_use :
    (∀ (now : Int) (n : String) (c : List (String × Int)),
      lookupA n (ENH.validate_nonce now n c).2 = none) ∧
    (∀ (now : Int) (n : String) (c : List (String × Int)) (t : Int),
      lookupA n c = some t → 300 < now - t →
      (ENH.validate_nonce now n c).1 = false) ∧
    (∀ (Hb : ENH.TxRec → String) (freshId nowIso : String) (now : Int) (hour : Nat)
        (req : ENH.P2PReq) (idemKey : String) (s : ENH.EnhState),
      lookupA idemKey s.idemCache = none →
      lookupA req.nonce s.nonceCache = none →
      ENH.p2p_payment Hb freshId nowIso now hour req idemKey s =
        (Except.error ENH.PayErr.invalidNonce, s)) ∧
    (∀ (Hb : ENH.TxRec → String) (freshId nowIso : String) (now : Int) (hour : Nat)
        (req : ENH.P2PReq) (idemKey : String) (s : ENH.EnhState),
      lookupA idemKey s.idemCache = none →
      lookupA req.nonce
        ((ENH.p2p_payment Hb freshId nowIso now hour req idemKey s).2.nonceCache) = none) := by
  refine ⟨ENH.validate_nonce_consumes, ?_, ?_, ?_⟩
  · intro now n c t hl hexp
    unfold ENH.validate_nonce
    simp only [hl]
    rw [if_pos hexp]
  · intro Hb freshId nowIso now hour req idemKey s hidem hnon
    unfold ENH.p2p_payment
    simp only [hidem]
    unfold ENH.validate_nonce
    simp only [hnon]
    simp
  · intro Hb freshId nowIso now hour req idemKey s hidem
    unfold ENH.p2p_payment
    simp only [hidem]
    repeat' split
    all_goals simp only [ENH.finishPayment]
    all_goals exact ENH.validate_nonce_consumes now req.nonce s.nonceCache

def sC4 : ENH.EnhState :=
  { users := [], transactions := [], fingerprints := [], blockchain := [],
    nonceCache := [], idemCache := [] }

def reqC4 : ENH.P2PReq :=
  { to_user := "user_77777", amount := 10, description := none,
    fingerprint_data := "fp-sample-002", nonce := "nonce-abc-12345",
    idempotency_key := "key-x" }

/-- Claim C4 witness: an issued nonce is gone from the cache after
validation; a 1000-second-old nonce is rejected; and the endpoint rejects a
request whose nonce is not in the store, leaving the state unchanged. -/
theorem C4_witness :
    lookupA "nonce-abc-12345"
      (ENH.validate_nonce 10 "nonce-abc-12345" [("nonce-abc-12345", 0)]).2 = none ∧
    (ENH.validate_nonce 1000 "nonce-abc-12345" [("nonce-abc-12345", 0)]).1 = false ∧
    ENH.p2p_payment (fun _ => "h") "tx1" "t0" 10 12 reqC4 "key-x" sC4 =
      (Except.error ENH.PayErr.invalidNonce, sC4) :=
  ⟨C4_nonce_single_use.1 10 "nonce-abc-12345" [("nonce-abc-12345", 0)],
   C4_nonce_single_use.2.1 1000 "nonce-abc-12345" [("nonce-abc-12345", 0)] 0 rfl (by decide),
   C4_nonce_single_use.2.2.1 (fun _ => "h") "tx1" "t0" 10 12 reqC4 "key-x" sC4 rfl rfl⟩

namespace ENH

/-- Effect of the success tail on the two account records when the
recipient is a different account than the sender. -/
theorem finishPayment_users (Hb : TxRec → String) (freshId nowIso : String)
    (req : P2PReq) (idemKey : String) (cu : Bool) (nb fs : ℚ) (rn : String)
    (s : EnhState) (hne : req.to_user ≠ "user_12345") (sr rr : URec)
    (hs : lookupA "user_12345" s.users = some sr)
    (hr : lookupA req.to_user s.users = some rr) :
    lookupA "user_12345"
        (finishPayment Hb freshId nowIso req idemKey cu nb fs rn s).2.users =
      some { sr with balance := nb, totalTransactions := sr.totalTransactions + 1 } ∧
    lookupA req.to_user
        (finishPayment Hb freshId nowIso req idemKey cu nb fs rn s).2.users =
      some { rr with balance := rr.balance + req.amount,
                     totalTransactions := rr.totalTransactions + 1 } := by
  have hne' : "user_12345" ≠ req.to_user := fun hc => hne hc.symm
  constructor
  · show lookupA "user_12345" (updA req.to_user _ (updA "user_12345" _ s.users)) = _
    rw [lookupA_updA_ne req.to_user "user_12345" hne', lookupA_updA_self, hs]
    rfl
  · show lookupA req.to_user (updA req.to_user _ (updA "user_12345" _ s.users)) = _
    rw [lookupA_updA_self, lookupA_updA_ne "user_12345" req.to_user hne, hr]
    rfl

end ENH

/-- Claim C1 (amended): for a freshly completed (non-replay) P2P transfer,
when the recipient account differs from the (hardcoded) sender
`user_12345`, the post-state balances are exactly `Bs - A` and `Br + A`;
and under hard-stop (`credit_mode` false) a completed transfer implies
`Bs - A >= 0`, so the sender is never left negative. -/
theorem C1_funds_conservation (Hb : ENH.TxRec → String) (freshId nowIso : String)
    (now : Int) (hour : Nat) (req : ENH.P2PReq) (idemKey : String)
    (s s' : ENH.EnhState) (tid : String) (nb : ℚ) (rn : String) (fs : ℚ)
    (cu : Bool) (lh : String)
    (h : ENH.p2p_payment Hb freshId nowIso now hour req idemKey s =
      (Except.ok (ENH.PayOk.completed tid nb rn fs cu lh), s'))
    (sr : ENH.URec) (hs : lookupA "user_12345" s.users = some sr) :
    (req.to_user ≠ "user_12345" →
      ∀ rr : ENH.URec, lookupA req.to_user s.users = some rr →
        (∃ sr' : ENH.URec, lookupA "user_12345" s'.users = some sr' ∧
          sr'.balance = sr.balance - req.amount) ∧
        (∃ rr' : ENH.URec, lookupA req.to_user s'.users = some rr' ∧
          rr'.balance = rr.balance + req.amount)) ∧
    (sr.creditMode = false → 0 ≤ sr.balance - req.amount) := by
  unfold ENH.p2p_payment at h
  cases hid : lookupA idemKey s.idemCache with
  | some tid0 =>
    simp only [hid] at h
    simp at h
  | none =>
    simp only [hid] at h
    by_cases hn : (ENH.validate_nonce now req.nonce s.nonceCache).1 = false
    · rw [if_pos hn] at h
      simp at h
    · rw [if_neg hn] at h
      cases hrec : lookupA req.to_user s.users with
      | none =>
        simp only [hrec] at h
        simp at h
      | some recipient =>
        simp only [hrec] at h
        cases hsend : lookupA "user_12345" s.users with
        | none =>
          simp only [hsend] at h
          simp at h
        | some sender =>
          obtain rfl : sr = sender := by
            have := hs.symm.trans hsend
            injection this
          simp only [hsend] at h
          cases hfp : lookupA "user_12345" s.fingerprints with
          | none =>
            simp only [hfp] at h
            simp at h
          | some storedFp =>
            simp only [hfp] at h
            by_cases hv : (ENH.verify_fingerprint storedFp req.fingerprint_data).1 = false
            · rw [if_pos hv] at h
              simp at h
            · rw [if_neg hv] at h
              by_cases hfr : (ENH.detect_fraud "user_12345" req.amount
                  (s.transactions.filter (fun tx => tx.from_user == "user_12345")) hour).1 = true
              · rw [if_pos hfr] at h
                simp at h
              · rw [if_neg hfr] at h
                by_cases hnb : sr.balance - req.amount < 0
                · rw [if_pos hnb] at h
                  by_cases hcm : sr.creditMode = false
                  · rw [if_pos hcm] at h
                    simp at h
                  · rw [if_neg hcm] at h
                    by_cases hcl : sr.creditLimit < abs (sr.balance - req.amount)
                    · rw [if_pos hcl] at h
                      simp at h
                    · rw [if_neg hcl] at h
                      have hs2 : (ENH.finishPayment Hb freshId nowIso req idemKey true
                          (sr.balance - req.amount)
                          (ENH.detect_fraud "user_12345" req.amount
                            (s.transactions.filter (fun tx => tx.from_user == "user_12345")) hour).2
                          (recipient.firstName ++ " " ++ recipient.lastName)
                          { s with
                            nonceCache := (ENH.validate_nonce now req.nonce s.nonceCache).2,
                            users := updA "user_12345"
                              (fun r => { r with creditUsed := abs (sr.balance - req.amount) })
                              s.users }).2 = s' := congrArg Prod.snd h
                      refine ⟨?_, fun hcmf => absurd hcmf hcm⟩
                      intro hne rr hr
                      obtain rfl : recipient = rr := by injection hr
                      have hlu : lookupA "user_12345"
                          (updA "user_12345"
                            (fun r => { r with creditUsed := abs (sr.balance - req.amount) })
                            s.users) =
                          some { sr with creditUsed := abs (sr.balance - req.amount) } := by
                        rw [lookupA_updA_self, hs]
                        rfl
                      have hlr : lookupA req.to_user
                          (updA "user_12345"
                            (fun r => { r with creditUsed := abs (sr.balance - req.amount) })
                            s.users) = some recipient := by
                        rw [lookupA_updA_ne "user_12345" req.to_user hne, hrec]
                      have hfin := ENH.finishPayment_users Hb freshId nowIso req idemKey true
                        (sr.balance - req.amount)
                        (ENH.detect_fraud "user_12345" req.amount
                          (s.transactions.filter (fun tx => tx.from_user == "user_12345")) hour).2
                        (recipient.firstName ++ " " ++ recipient.lastName)
                        { s with
                          nonceCache := (ENH.validate_nonce now req.nonce s.nonceCache).2,
                          users := updA "user_12345"
                            (fun r => { r with creditUsed := abs (sr.balance - req.amount) })
                            s.users }
                        hne { sr with creditUsed := abs (sr.balance - req.amount) } recipient hlu hlr
                      rw [hs2] at hfin
                      exact ⟨⟨_, hfin.1, rfl⟩, ⟨_, hfin.2, rfl⟩⟩
                · rw [if_neg hnb] at h
                  have hs2 : (ENH.finishPayment Hb freshId nowIso req idemKey false
                      (sr.balance - req.amount)
                      (ENH.detect_fraud "user_12345" req.amount
                        (s.transactions.filter (fun tx => tx.from_user == "user_12345")) hour).2
                      (recipient.firstName ++ " " ++ recipient.lastName)
                      { s with
                        nonceCache := (ENH.validate_nonce now req.nonce s.nonceCache).2 }).2 = s' :=
                    congrArg Prod.snd h
                  refine ⟨?_, fun _ => not_lt.mp hnb⟩
                  intro hne rr hr
                  obtain rfl : recipient = rr := by injection hr
                  have hfin := ENH.finishPayment_users Hb freshId nowIso req idemKey false
                    (sr.balance - req.amount)
                    (ENH.detect_fraud "user_12345" req.amount
                      (s.transactions.filter (fun tx => tx.from_user == "user_12345")) hour).2
                    (recipient.firstName ++ " " ++ recipient.lastName)
                    { s with nonceCache := (ENH.validate_nonce now req.nonce s.nonceCache).2 }
                    hne sr recipient hs hrec
                  rw [hs2] at hfin
                  exact ⟨⟨_, hfin.1, rfl⟩, ⟨_, hfin.2, rfl⟩⟩

def uC1 : ENH.URec :=
  { balance := 100, creditMode := false, creditLimit := 0, creditUsed := 0,
    totalTransactions := 0, firstName := "A", lastName := "B" }

def uC1r : ENH.URec :=
  { balance := 500, creditMode := false, creditLimit := 0, creditUsed := 0,
    totalTransactions := 0, firstName := "C", lastName := "D" }

/-- State for the C1 counterexample: only the sender exists, and it pays
itself. -/
def sX : ENH.EnhState :=
  { users := [("user_12345", uC1)], transactions := [],
    fingerprints := [("user_12345", "fp-sample-xyz")], blockchain := [],
    nonceCache := [("nonce-self-00001", 0)], idemCache := [] }

def reqX : ENH.P2PReq :=
  { to_user := "user_12345", amount := 50, description := none,
    fingerprint_data := "fp-sample-xyz", nonce := "nonce-self-00001",
    idempotency_key := "k-self" }

/-- Claim C1 counterexample: a successful transfer of 50 from `user_12345`
(balance 100) to itself completes, but the post-state balance is 100 — the
recipient credit re-reads the freshly debited record through the same dict
handle — not the claimed `Bs - A = 50` (nor `Br + A = 150`). -/
theorem C1_counterexample :
    (ENH.p2p_payment (fun _ => "h") "tx_self" "t0" 10 12 reqX "hk-self" sX).1 =
      Except.ok (ENH.PayOk.completed "tx_self" 50 "A B" 0 false "h") ∧
    (lookupA "user_12345"
        (ENH.p2p_payment (fun _ => "h") "tx_self" "t0" 10 12 reqX "hk-self" sX).2.users).map
      ENH.URec.balance = some 100 ∧
    ¬ (some (100 : ℚ) = some ((100 : ℚ) - 50) ∧ some (100 : ℚ) = some ((100 : ℚ) + 50)) := by
  refine ⟨?_, ?_, ?_⟩ <;>
    norm_num [ENH.p2p_payment, ENH.validate_nonce, ENH.verify_fingerprint, ENH.detect_fraud,
      ENH.finishPayment, ENH.add_to_blockchain, ENH.declinedTx, lookupA, updA, eraseA,
      insertA, sX, reqX, uC1] <;> try rfl

/-- State for the C1 witness: distinct sender and recipient. -/
def sW : ENH.EnhState :=
  { users := [("user_12345", uC1), ("user_22222", uC1r)], transactions := [],
    fingerprints := [("user_12345", "fp-sample-xyz")], blockchain := [],
    nonceCache := [("nonce-w-000001", 0)], idemCache := [] }

def reqW : ENH.P2PReq :=
  { to_user := "user_22222", amount := 50, description := none,
    fingerprint_data := "fp-sample-xyz", nonce := "nonce-w-000001",
    idempotency_key := "k-w" }

/-- Claim C1 witness: a completed 50 transfer from `user_12345` (balance
100) to `user_22222` (balance 500) leaves exactly 50 and 550, and the
hard-stop bound holds. -/
theorem C1_witness :
    ((∃ sr' : ENH.URec, lookupA "user_12345"
        (ENH.p2p_payment (fun _ => "h") "tx_w" "t0" 10 12 reqW "hk-w" sW).2.users =
          some sr' ∧ sr'.balance = (100 : ℚ) - 50) ∧
     (∃ rr' : ENH.URec, lookupA "user_22222"
        (ENH.p2p_payment (fun _ => "h") "tx_w" "t0" 10 12 reqW "hk-w" sW).2.users =
          some rr' ∧ rr'.balance = (500 : ℚ) + 50)) ∧
    (0 : ℚ) ≤ (100 : ℚ) - 50 := by
  have h1 : (ENH.p2p_payment (fun _ => "h") "tx_w" "t0" 10 12 reqW "hk-w" sW).1 =
      Except.ok (ENH.PayOk.completed "tx_w" 50 "C D" 0 false "h") := by
    with_unfolding_all rfl
  have h : ENH.p2p_payment (fun _ => "h") "tx_w" "t0" 10 12 reqW "hk-w" sW =
      (Except.ok (ENH.PayOk.completed "tx_w" 50 "C D" 0 false "h"),
       (ENH.p2p_payment (fun _ => "h") "tx_w" "t0" 10 12 reqW "hk-w" sW).2) := by
    rw [← h1]
  have hc := C1_funds_conservation (fun _ => "h") "tx_w" "t0" 10 12 reqW "hk-w" sW
    (ENH.p2p_payment (fun _ => "h") "tx_w" "t0" 10 12 reqW "hk-w" sW).2
    "tx_w" 50 "C D" 0 false "h" h uC1 rfl
  exact ⟨hc.1 (by decide) uC1r rfl, hc.2 rfl⟩

namespace RT

/-- A users-collection record for the payments router (the fields it reads
or writes). -/
structure RUser where
  balance : ℚ
  totalTransactions : Nat
  firstName : String
  lastName : String
deriving DecidableEq

/-- A transactions-collection document as built by `process_p2p_payment`. -/
structure RTx where
  transaction_id : String
  from_user : String
  to_user : String
  amount : ℚ
  description : Option String
  transaction_type : String
  status : String
  anomaly_score : ℚ
  is_flagged : Bool
  created_at : AI.DT
  blockchain_recorded : Option Bool
  processed : Bool
deriving DecidableEq

/-- Shared storage touched by the router: users, transactions,
fingerprint templates, and the blockchain service state. -/
structure RState where
  users : List (String × RUser)
  transactions : List RTx
  fingerprints : List (String × String)
  bc : BC.BCState
deriving DecidableEq

/-- The router's external collaborators: the AI environment, the biometric
authenticator (user, stored template, live sample), the clock, and the
blockchain service's hash abstraction / clock readings / mining fuel. -/
structure RtEnv where
  ai : AI.AiEnv
  auth : String → String → String → Bool
  now : AI.DT
  H : BC.HashInput → String
  mineTs : String
  rewardTs : String
  rewardId : String
  fuel : Nat

/-- The `P2PPaymentRequest` model fields the router reads. -/
structure RReq where
  to_user : String
  amount : ℚ
  description : Option String
  fingerprint_data : String
deriving DecidableEq

/-- The authenticated `current_user` dependency (its `user_id` and the
balance snapshot the router trusts for the funds check). -/
structure CurrentUser where
  user_id : String
  balance : ℚ
deriving DecidableEq

/-- The router's `HTTPException` outcomes. -/
inductive RErr
  | fingerprintNotEnrolled
  | authFailed
  | insufficientFunds
  | recipientNotFound
deriving DecidableEq

/-- The router's `PaymentResponse` fields. -/
structure RResp where
  success : Bool
  transaction_id : String
  balance_after : Option ℚ
  recipient_name : Option String
  anomaly_flagged : Bool
  anomaly_score : Option ℚ
  blockchain_recorded : Option Bool
deriving DecidableEq

/-- `BlockchainService.add_transaction`: build the chain transaction at the
current clock, add it, and auto-mine when the pending buffer has reached 5. -/
def blockchainAdd (env : RtEnv) (fromU toU : String) (amount : ℚ)
    (ttype txid : String) (bc : BC.BCState) : Bool × BC.BCState :=
  let r := BC.add_transaction bc ⟨fromU, toU, amount, ttype, env.ai.iso env.now, txid⟩
  if r.1 ∧ 5 ≤ r.2.pending.length then
    (r.1, (BC.minePending env.H r.2 "system" env.mineTs env.rewardTs env.rewardId env.fuel).2)
  else r

/-- The history query: transactions touching the sender, first 50, mapped
to the `{amount, timestamp, transaction_type}` dicts handed to the AI. -/
def userHistory (env : RtEnv) (uid : String) (txs : List RTx) : List AI.HistE :=
  ((txs.filter (fun tx => tx.from_user == uid || tx.to_user == uid)).take 50).map
    (fun tx => { amount := some tx.amount, timestamp := some (env.ai.iso tx.created_at),
                 transaction_type := some tx.transaction_type })

/-- The transaction dict the router hands to the anomaly scorer. -/
def txnForAi (env : RtEnv) (freshId : String) (req : RReq) : AI.Txn :=
  { transaction_id := some freshId, amount := some req.amount,
    transaction_type := some "p2p", timestamp := some (env.ai.iso env.now) }

/-- The base transaction document (`status = "pending"`) built after the
AI call. -/
def baseTx (env : RtEnv) (freshId : String) (cu : CurrentUser) (req : RReq)
    (ar : AI.AnomalyResult) : RTx :=
  { transaction_id := freshId, from_user := cu.user_id, to_user := req.to_user,
    amount := req.amount, description := req.description, transaction_type := "p2p",
    status := "pending", anomaly_score := ar.anomaly_score, is_flagged := ar.is_anomalous,
    created_at := env.now, blockchain_recorded := none, processed := false }

/-- `process_p2p_payment` of `payments/router.py`: biometric auth, balance
check against the `current_user` snapshot, recipient lookup, AI fraud
screen (flagged transactions are persisted outside the ledger and decline
the payment), then the balance writes, the blockchain append and the
finalized document. -/
def process_p2p_payment (env : RtEnv) (freshId : String) (cu : CurrentUser)
    (req : RReq) (s : RState) : (Except RErr RResp) × RState :=
  match lookupA cu.user_id s.fingerprints with
  | none => (Except.error RErr.fingerprintNotEnrolled, s)
  | some tmpl =>
    if env.auth cu.user_id tmpl req.fingerprint_data = false then
      (Except.error RErr.authFailed, s)
    else if cu.balance < req.amount then
      (Except.error RErr.insufficientFunds, s)
    else
      match lookupA req.to_user s.users with
      | none => (Except.error RErr.recipientNotFound, s)
      | some recipient =>
        let ar := AI.check_transaction_anomaly env.ai (txnForAi env freshId req)
          (userHistory env cu.user_id s.transactions)
        if ar.is_anomalous then
          (Except.ok { success := false, transaction_id := freshId, balance_after := none,
                       recipient_name := none, anomaly_flagged := true,
                       anomaly_score := some ar.anomaly_score, blockchain_recorded := none },
           { s with transactions :=
              s.transactions ++ [{ baseTx env freshId cu req ar with status := "flagged" }] })
        else
          let newSenderBal := cu.balance - req.amount
          let newRecipBal := recipient.balance + req.amount
          let us1 := updA cu.user_id
            (fun r => { r with balance := newSenderBal,
                               totalTransactions := r.totalTransactions + 1 }) s.users
          let us2 := updA req.to_user (fun r => { r with balance := newRecipBal }) us1
          let bcr := blockchainAdd env cu.user_id req.to_user req.amount "p2p" freshId s.bc
          (Except.ok { success := true, transaction_id := freshId,
                       balance_after := some newSenderBal,
                       recipient_name := some (recipient.firstName ++ " " ++ recipient.lastName),
                       anomaly_flagged := false, anomaly_score := some ar.anomaly_score,
                       blockchain_recorded := some bcr.1 },
           { s with users := us2, bc := bcr.2,
                    transactions := s.transactions ++
                      [{ baseTx env freshId cu req ar with
                          status := "completed", processed := true,
                          blockchain_recorded := some bcr.1 }] })

end RT

/-- Claim C6 (amended): for a payment of 2000.00 from a sender with empty
history, the fraud screen produces the `new_user_large_amount` tag but not
`large_amount` (that tag requires amount > 5000); and whenever the result
is anomalous (clamped score above threshold or model outlier flag), the
orchestrator persists the transaction with status `"flagged"` outside the
ledger, returns a declined (success = false) response carrying the score,
and moves no funds: users and blockchain state are unchanged. -/
theorem C6_fraud_decline (env : RT.RtEnv) (freshId : String) (cu : RT.CurrentUser)
    (req : RT.RReq) (s : RT.RState) (r : AI.AnomalyResult)
    (hamt : req.amount = 2000)
    (hhist : RT.userHistory env cu.user_id s.transactions = [])
    (hok : AI.checkCore env.ai (RT.txnForAi env freshId req) [] = Except.ok r) :
    ("new_user_large_amount" ∈ r.risk_factors ∧ "large_amount" ∉ r.risk_factors) ∧
    (r.is_anomalous = true →
      ∀ tmpl : String, lookupA cu.user_id s.fingerprints = some tmpl →
      env.auth cu.user_id tmpl req.fingerprint_data = true →
      ¬ (cu.balance < req.amount) →
      ∀ rec : RT.RUser, lookupA req.to_user s.users = some rec →
      RT.process_p2p_payment env freshId cu req s =
        (Except.ok { success := false, transaction_id := freshId, balance_after := none,
                     recipient_name := none, anomaly_flagged := true,
                     anomaly_score := some r.anomaly_score, blockchain_recorded := none },
         { s with transactions :=
            s.transactions ++ [{ RT.baseTx env freshId cu req r with status := "flagged" }] }) ∧
      (RT.process_p2p_payment env freshId cu req s).2.users = s.users ∧
      (RT.process_p2p_payment env freshId cu req s).2.bc = s.bc) := by
  have hcheck : AI.check_transaction_anomaly env.ai (RT.txnForAi env freshId req) [] = r := by
    unfold AI.check_transaction_anomaly
    rw [hok]
  constructor
  · unfold AI.checkCore at hok
    cases hd : env.ai.decision (AI.extract_features env.ai (RT.txnForAi env freshId req) []) with
    | none =>
      rw [hd] at hok
      exact absurd hok (by simp)
    | some raw =>
      rw [hd] at hok
      cases hp : env.ai.predict (AI.extract_features env.ai (RT.txnForAi env freshId req) []) with
      | none =>
        rw [hp] at hok
        exact absurd hok (by simp)
      | some outl =>
        rw [hp] at hok
        cases ht : env.ai.parse (((RT.txnForAi env freshId req).timestamp).getD
            (env.ai.iso env.ai.now)) with
        | none =>
          rw [ht] at hok
          exact absurd hok (by simp)
        | some txT =>
          rw [ht] at hok
          have hno5000 : ¬ ((5000 : ℚ) < ((RT.txnForAi env freshId req).amount).getD 0) := by
            simp [RT.txnForAi, hamt]
            norm_num
          have hyes1000 : (([] : List AI.HistE).length = 0 ∧
              (1000 : ℚ) < ((RT.txnForAi env freshId req).amount).getD 0) := by
            simp [RT.txnForAi, hamt]
            norm_num
          simp only [if_neg hno5000, if_pos hyes1000, List.length_nil, lt_irrefl,
            if_false, List.nil_append] at hok
          by_cases hc3 : txT.hour < 6 ∨ 23 < txT.hour
          · simp only [if_pos hc3] at hok
            obtain rfl : _ = r := by injection hok
            simp [RT.txnForAi, hamt, show (1000 : ℚ) < 2000 by norm_num]
          · simp only [if_neg hc3] at hok
            obtain rfl : _ = r := by injection hok
            simp [RT.txnForAi, hamt, show (1000 : ℚ) < 2000 by norm_num]
  · intro hanom tmpl hfp hauth hbal rec hrec
    unfold RT.process_p2p_payment
    simp only [hfp, hauth, Bool.true_eq_false, if_false, if_neg hbal, hrec, hhist, hcheck,
      hanom, if_true]
    exact ⟨trivial, trivial, trivial⟩

/-- Concrete scorer environment for the C6 counterexample: base model score
0, no outlier flag, daytime hour. -/
def envC6 : AI.AiEnv :=
  { parse := fun _ => some ⟨0, 12, 0⟩
    now := ⟨0, 12, 0⟩
    iso := fun _ => "i"
    log1p := fun _ => 0
    mean := fun _ => 0
    std := fun _ => 0
    median := fun _ => 0
    decision := fun _ => some (1/2)
    predict := fun _ => some false }

def tC6 : AI.Txn := ⟨some "c6", some 2000, some "p2p", some "x"⟩

/-- Claim C6 counterexample: at amount 2000 with empty history the fraud
screen yields only `new_user_large_amount` — `large_amount` (which needs
amount > 5000) is absent — and with base model score 0 the adjusted score
is 0.3, which does not exceed the 0.5 threshold, so the transaction is not
even declined. -/
theorem C6_counterexample :
    (AI.check_transaction_anomaly envC6 tC6 []).risk_factors = ["new_user_large_amount"] ∧
    "large_amount" ∉ (AI.check_transaction_anomaly envC6 tC6 []).risk_factors ∧
    (AI.check_transaction_anomaly envC6 tC6 []).is_anomalous = false := by
  refine ⟨?_, ?_, ?_⟩ <;>
    norm_num [AI.check_transaction_anomaly, AI.checkCore, AI.round4, AI.roundHalfEven,
      AI.pyMin, AI.pyMax, AI.anomalyThreshold, AI.listParse, envC6, tC6] <;> decide

/-- Scorer environment for the C6 witness: base score 0 but the model's
binary outlier flag set, so the result is anomalous. -/
def envW6 : AI.AiEnv :=
  { parse := fun _ => some ⟨0, 12, 0⟩
    now := ⟨0, 12, 0⟩
    iso := fun _ => "i"
    log1p := fun _ => 0
    mean := fun _ => 0
    std := fun _ => 0
    median := fun _ => 0
    decision := fun _ => some (1/2)
    predict := fun _ => some true }

def envW6R : RT.RtEnv :=
  { ai := envW6, auth := fun _ _ _ => true, now := ⟨0, 12, 0⟩, H := fun _ => "h",
    mineTs := "mt", rewardTs := "rt", rewardId := "rid", fuel := 0 }

def uRecv : RT.RUser :=
  { balance := 10, totalTransactions := 0, firstName := "R", lastName := "S" }

def cuW6 : RT.CurrentUser := { user_id := "sender-0001", balance := 5000 }

def reqW6 : RT.RReq :=
  { to_user := "recv-0001", amount := 2000, description := none, fingerprint_data := "fp" }

def sW6 : RT.RState :=
  { users := [("recv-0001", uRecv)], transactions := [],
    fingerprints := [("sender-0001", "tmpl")], bc := BC.initState (fun _ => "h") "t0" }

/-- The anomaly result produced in the C6 witness run. -/
def rW6 : AI.AnomalyResult :=
  { transaction_id := some "txw6", anomaly_score := 3/10, is_anomalous := true,
    risk_factors := ["new_user_large_amount"], model_prediction := "outlier",
    timestamp := "i" }

/-- Claim C6 witness: a flagged 2000 payment is persisted with status
`"flagged"`, declined with the score, and neither balances nor the
blockchain change. -/
theorem C6_witness :
    RT.process_p2p_payment envW6R "txw6" cuW6 reqW6 sW6 =
      (Except.ok { success := false, transaction_id := "txw6", balance_after := none,
                   recipient_name := none, anomaly_flagged := true,
                   anomaly_score := some rW6.anomaly_score, blockchain_recorded := none },
       { sW6 with transactions := sW6.transactions ++
          [{ RT.baseTx envW6R "txw6" cuW6 reqW6 rW6 with status := "flagged" }] }) ∧
    (RT.process_p2p_payment envW6R "txw6" cuW6 reqW6 sW6).2.users = sW6.users ∧
    (RT.process_p2p_payment envW6R "txw6" cuW6 reqW6 sW6).2.bc = sW6.bc := by
  have hok : AI.checkCore envW6R.ai (RT.txnForAi envW6R "txw6" reqW6) [] = Except.ok rW6 := by
    norm_num [AI.checkCore, AI.round4, AI.roundHalfEven, AI.pyMin, AI.pyMax,
      AI.anomalyThreshold, AI.listParse, envW6R, envW6, RT.txnForAi, reqW6, rW6,
      AI.AnomalyResult.mk.injEq]
  have h := C6_fraud_decline envW6R "txw6" cuW6 reqW6 sW6 rW6 rfl rfl hok
  have h2 := h.2 rfl "tmpl" rfl rfl (by norm_num [cuW6, reqW6]) uRecv rfl
  exact h2
